import Mathlib

/-!
Verification development for the `ytm` watch-history server.

The definitions below are a shallow embedding of the repository's Rust
sources.  `chrono::DateTime<Utc>` timestamps are embedded as `Int` (all the
code needs from them is a decidable linear order); `usize` arithmetic is
embedded as `Nat`, with the two operations that can overflow on
query-controlled values — `page * limit` in `get_collection` and
`current_page + 2` in `Pagination::new` — wrapped explicitly modulo `2^64`
as in a release build (a debug build would panic on the overflow instead;
in neither profile is an un-wrapped result produced), and the place where
Rust panics in every profile — the `%` by zero in `get_collection` — made
explicit by an `Option` result.  Rust's stable `sort_by` / `sort_by_key` /
`sort` are embedded as `List.insertionSort`, which is a stable sort, with
the same comparison key.
-/

namespace Ytm

/-- Channel, from `src/src/schema/mod.rs` (struct `Channel`). -/
structure Channel where
  id : String
  name : String
deriving DecidableEq, Repr

/-- Metadata, from `src/src/schema/mod.rs` (struct `Metadata`).
`watched_at` holds the earliest watch time of the video. -/
structure Metadata where
  id : String
  title : String
  channel : Channel
  watched_at : Int
  watch_count : Nat
  watch_timeline : List Int
deriving DecidableEq, Repr

/-- Order, from `src/src/schema/mod.rs` (enum `Order`). -/
inductive Order where
  | Latest
  | Oldest
  | MostWatched
  | LeastWatched
deriving DecidableEq, Repr

/-- default_page, from `src/src/schema/mod.rs`. -/
def default_page : Nat := 1

/-- default_limit, from `src/src/schema/mod.rs`. -/
def default_limit : Nat := 20

/-- default_order, from `src/src/schema/mod.rs`. -/
def default_order : Order := Order.Latest

/-- MetadataFilter, from `src/src/schema/mod.rs`.  The Rust field `from` is a
Lean keyword, hence the guillemets. -/
structure MetadataFilter where
  id : Option String
  title : Option String
  channel_name : Option String
  «from» : Option Int
  «to» : Option Int
  order : Order
  page : Nat
  limit : Nat
deriving DecidableEq, Repr

/-- `MetadataFilter::skip`: all filtering fields are `None`. -/
def MetadataFilter.skip (f : MetadataFilter) : Bool :=
  f.id.isNone && f.title.isNone && f.channel_name.isNone && f.«from».isNone && f.«to».isNone

/-- MetadataTable, from `src/src/schema/mod.rs`. -/
structure MetadataTable where
  total_count_raw : Nat
  total_count : Nat
  watch_timeline : List Int
  data : List Metadata
deriving DecidableEq, Repr

/-- ASCII lower casing of a string, as a character list.  Embeds Rust's
`str::to_lowercase` for the ASCII range (the Unicode special cases are not
exercised by any claim). -/
def lowerChars (s : String) : List Char :=
  s.data.map Char.toLower

/-- `pat` is a leading segment of `s`. -/
def leadsList (pat s : List Char) : Bool :=
  match pat, s with
  | [], _ => true
  | _ :: _, [] => false
  | p :: ps, c :: cs => p == c && leadsList ps cs

/-- `pat` occurs contiguously somewhere in `s`; embeds Rust's
`str::contains` on substrings. -/
def occursIn (pat s : List Char) : Bool :=
  match s with
  | [] => leadsList pat []
  | _ :: cs => leadsList pat s || occursIn pat cs

/-- Case-insensitive containment:
`hay.to_lowercase().contains(&pat.to_lowercase())`. -/
def containsLower (hay pat : String) : Bool :=
  occursIn (lowerChars pat) (lowerChars hay)

/-- The filter predicate applied to each row inside
`MetadataTable::get_collection` (`src/src/schema/mod.rs`, the closure in the
`.filter(..)` call): every present field must match; an all-`None` filter
passes everything. -/
def filterPred (f : MetadataFilter) (x : Metadata) : Bool :=
  if f.skip then true
  else
    (match f.id with
     | some v => x.id == v
     | none => true) &&
    (match f.title with
     | some v => containsLower x.title v
     | none => true) &&
    (match f.channel_name with
     | some v => containsLower x.channel.name v
     | none => true) &&
    (match f.«from» with
     | some v => decide (v < x.watched_at)
     | none => true) &&
    (match f.«to» with
     | some v => decide (x.watched_at < v)
     | none => true)

/-- The comparison used by `data.sort_by(|a, b| b.watched_at.cmp(&a.watched_at))`
in `load_v1`: descending order of `watched_at`. -/
def latestLe (a b : Metadata) : Prop := b.watched_at ≤ a.watched_at

instance : DecidableRel latestLe :=
  fun a b => inferInstanceAs (Decidable (b.watched_at ≤ a.watched_at))

instance : IsTotal Metadata latestLe := ⟨fun a b => le_total b.watched_at a.watched_at⟩

instance : IsTrans Metadata latestLe := ⟨fun _ _ _ hab hbc => le_trans hbc hab⟩

/-- The key comparison used by `filtered.sort_by_key(|v| v.watch_count)`:
ascending `watch_count`. -/
def countLe (a b : Metadata) : Prop := a.watch_count ≤ b.watch_count

instance : DecidableRel countLe :=
  fun a b => inferInstanceAs (Decidable (a.watch_count ≤ b.watch_count))

instance : IsTotal Metadata countLe := ⟨fun a b => le_total a.watch_count b.watch_count⟩

instance : IsTrans Metadata countLe := ⟨fun _ _ _ hab hbc => le_trans hab hbc⟩

/-- The filtered and ordered sequence built inside
`MetadataTable::get_collection` before pagination
(`src/src/schema/mod.rs` lines 169–224): filter `self.data`, then reorder
according to `filter.order` (`Latest` keeps the table order, `Oldest`
reverses it, `MostWatched` stable-sorts ascending by `watch_count` and
reverses, `LeastWatched` stable-sorts ascending by `watch_count`). -/
def sortedFiltered (t : MetadataTable) (f : MetadataFilter) : List Metadata :=
  match f.order with
  | Order.Latest => t.data.filter (filterPred f)
  | Order.Oldest => (t.data.filter (filterPred f)).reverse
  | Order.MostWatched => (List.insertionSort countLe (t.data.filter (filterPred f))).reverse
  | Order.LeastWatched => List.insertionSort countLe (t.data.filter (filterPred f))

/-- `usize::MAX` on a 64-bit target; the value `(x as f64).ceil() as usize`
saturates to when the float is `+inf`. -/
def usizeMax : Nat := 2 ^ 64 - 1

/-- Wrapping `usize` arithmetic on a 64-bit target: the result of an
overflowing operation in a release build (a debug build panics there
instead — in neither profile does the un-wrapped mathematical value
survive). -/
def usizeWrap (n : Nat) : Nat := n % 2 ^ 64

/-- Embeds `(total_item as f64 / filter.limit as f64).ceil() as usize` from
`get_collection`.  For `limit > 0` this is exact ceiling division (`f64` is
exact for the integer sizes the program can hold); for `limit = 0` the float
division yields `NaN` (cast saturates to `0`) when `total = 0` and `+inf`
(cast saturates to `usize::MAX`) otherwise. -/
def total_page_of (total limit : Nat) : Nat :=
  if limit = 0 then (if total = 0 then 0 else usizeMax)
  else (total + limit - 1) / limit

/-- The pagination window bounds of `get_collection`
(`src/src/schema/mod.rs` lines 229–241):
`page_offset = page * limit` is a `usize` product, wrapped modulo `2^64`
(release profile; a debug build panics on the overflowing multiply);
`right = page_offset.min(total)`;
`left = page_offset.saturating_sub(limit)` when `page_offset < total`,
otherwise `total - total % limit` — where Rust's `%` panics in every
profile when `limit = 0`, embedded as `none`. -/
def windowBounds (total page limit : Nat) : Option (Nat × Nat) :=
  if usizeWrap (page * limit) < total then
    some (usizeWrap (page * limit) - limit, min (usizeWrap (page * limit)) total)
  else if limit = 0 then
    none
  else
    some (total - total % limit, min (usizeWrap (page * limit)) total)

/-- Pagination, from `src/src/schema/mod.rs` (struct `Pagination`). -/
structure Pagination where
  current_page : Nat
  prev_page : Option Nat
  next_page : Option Nat
  total_page : Nat
  limit : Nat
  page_range : List Nat
deriving DecidableEq, Repr

/-- `Pagination::new`, from `src/src/schema/mod.rs` lines 44–85.  The Rust
`(start..=end).collect()` is `List.range' start (end + 1 - start)` (empty
when `end < start`, as in Rust).  The `usize` sum `current_page + 2` is
wrapped modulo `2^64` (release profile); `current_page + 1` in
`next_page` is guarded by `current_page < total_page ≤ usize::MAX` and
cannot overflow, and the subtractions are saturating or guarded in the
source. -/
def Pagination.new (current_page total_page limit : Nat) : Pagination :=
  let prev_page := if current_page > 1 then some (current_page - 1) else none
  let next_page := if current_page < total_page then some (current_page + 1) else none
  let se : Nat × Nat :=
    if total_page ≤ 5 then (1, total_page)
    else
      let s := max (current_page - 2) 1
      let e := max (usizeWrap (current_page + 2)) 5
      if e > total_page then (max (s - (e - total_page)) 1, total_page) else (s, e)
  { current_page := current_page
    prev_page := prev_page
    next_page := next_page
    total_page := total_page
    limit := limit
    page_range := List.range' se.1 (se.2 + 1 - se.1) }

/-- `MetadataTable::get_collection`, from `src/src/schema/mod.rs` lines
168–247.  The Rust method takes `&mut self` but never writes a field of
`self` (the filter clones the rows); the embedding makes the state passing
explicit by returning the post-call table alongside the result.  The
`filtered.drain(right..); filtered.drain(..left)` pair leaves the slice
`[left, right)`, i.e. `(take right).drop left`.  The result is `none`
exactly on the Rust panic path (`total_item % limit_offset` with
`limit_offset = 0`). -/
def MetadataTable.get_collection (t : MetadataTable) (f : MetadataFilter) :
    Option (MetadataTable × Pagination × List Metadata) :=
  match windowBounds (sortedFiltered t f).length f.page f.limit with
  | none => none
  | some (left, right) =>
    some (t,
      Pagination.new f.page (total_page_of (sortedFiltered t f).length f.limit) f.limit,
      ((sortedFiltered t f).take right).drop left)

/-- Schema, from `src/src/schema/v1.rs` (struct `Schema`) as it reaches the
aggregation loop of `load_v1`: an already-decoded raw watch event. -/
structure Schema where
  id : String
  title : String
  time : Int
  channel : Channel
deriving DecidableEq, Repr

/-- The fresh `Metadata` built by `load_v1` for an unseen video id
(`src/src/schema/mod.rs` lines 336–346). -/
def newMeta (r : Schema) : Metadata :=
  { id := r.id
    title := r.title
    channel := { id := r.channel.id, name := r.channel.name }
    watched_at := r.time
    watch_count := 1
    watch_timeline := [r.time] }

/-- The in-place update `load_v1` performs on the entry of an already-seen
video id (`src/src/schema/mod.rs` lines 325–334): keep the earliest
`watched_at`, bump `watch_count`, push the new time and re-sort the
timeline (Rust `Vec::sort`, a stable ascending sort). -/
def updateMeta (r : Schema) (m : Metadata) : Metadata :=
  { m with
    watched_at := if r.time < m.watched_at then r.time else m.watched_at
    watch_count := m.watch_count + 1
    watch_timeline := List.insertionSort (· ≤ ·) (m.watch_timeline ++ [r.time]) }

/-- One iteration of the `for r in raw` loop of `load_v1` on the
`HashMap<String, Metadata>`, embedded as an association list in insertion
order (the per-key contents are exactly the Rust map's; only the iteration
order of `into_values`, which Rust leaves unspecified and which the final
sort mostly erases, is fixed here). -/
def insertRecord (map : List Metadata) (r : Schema) : List Metadata :=
  if map.any (fun m => m.id == r.id) then
    map.map (fun m => if m.id == r.id then updateMeta r m else m)
  else
    map ++ [newMeta r]

/-- The whole `for r in raw` loop of `load_v1`: counts raw events, pushes
every time onto the global timeline, and folds each record into the map. -/
def load_v1_fold : List Schema → Nat × List Int × List Metadata → Nat × List Int × List Metadata
  | [], st => st
  | r :: rest, (n, tl, map) => load_v1_fold rest (n + 1, tl ++ [r.time], insertRecord map r)

/-- `load_v1`, from `src/src/schema/mod.rs` lines 312–362 (the aggregation
of already-decoded records into a `MetadataTable`): run the loop, sort the
item list descending by `watched_at` (stable `sort_by`), sort the global
timeline ascending. -/
def load_v1 (raw : List Schema) : MetadataTable :=
  let st := load_v1_fold raw (0, [], [])
  let data := List.insertionSort latestLe st.2.2
  { total_count_raw := st.1
    total_count := data.length
    watch_timeline := List.insertionSort (· ≤ ·) st.2.1
    data := data }

/-! ### The accept loop of the listener (`src/src/main.rs`, `Listener::accept`) -/

/-- One outcome of `self.listener.accept().await` inside the retry loop. -/
inductive AcceptOutcome where
  | ok
  | err
deriving DecidableEq, Repr

/-- What the retry loop produces: a connection or a fatal error, together
with the list of backoff delays (in seconds) slept before that happened. -/
inductive AcceptResult where
  | connected (delays : List Nat)
  | fatal (delays : List Nat)
deriving DecidableEq, Repr

/-- The body of `Listener::accept` (`src/src/main.rs` lines 64–83) as a
function of the sequence of outcomes the socket produced: `Ok` returns at
once; `Err` with `backoff > 64` returns the error at once; otherwise the
loop sleeps `backoff` seconds, doubles `backoff` and retries.  An outcome
list too short to reach a return is `none` (the Rust loop would still be
waiting). -/
def Listener.accept_go (backoff : Nat) : List AcceptOutcome → Option AcceptResult
  | [] => none
  | AcceptOutcome.ok :: _ => some (AcceptResult.connected [])
  | AcceptOutcome.err :: rest =>
    if backoff > 64 then some (AcceptResult.fatal [])
    else
      match Listener.accept_go (backoff * 2) rest with
      | none => none
      | some (AcceptResult.connected ds) => some (AcceptResult.connected (backoff :: ds))
      | some (AcceptResult.fatal ds) => some (AcceptResult.fatal (backoff :: ds))

/-- `Listener::accept` starts with `backoff = 1`. -/
def Listener.accept (outcomes : List AcceptOutcome) : Option AcceptResult :=
  Listener.accept_go 1 outcomes

/-! ### The shutdown/drain protocol of `main` (`src/src/main.rs` lines 49–60
and 117–139)

The state tracks what decides the two halves of the graceful-drain claim:
whether the accept loop is still running, how many spawned
connection-serving tasks are in flight, and who holds a sender of the
`shutdown_complete` mpsc channel.  Tokio mpsc semantics: `recv()` on the
receiver resolves (with `None`) as soon as every sender has been dropped. -/

structure DrainState where
  accepting : Bool
  inflight : Nat
  task_senders : Nat
  listener_sender : Bool
deriving DecidableEq, Repr

/-- The initial state of `main`: the listener holds the one
`shutdown_complete_tx`; no task holds any. -/
def DrainState.init : DrainState :=
  { accepting := true, inflight := 0, task_senders := 0, listener_sender := true }

/-- `tokio::spawn` in `Listener::run` (`src/src/main.rs` lines 49–60): the
spawned task captures the permit and a `Shutdown` receiver.  No clone of
`shutdown_complete_tx` is moved into the task, so `task_senders` does not
grow. -/
def spawnConnection (s : DrainState) : DrainState :=
  { s with inflight := s.inflight + 1 }

/-- A spawned connection task finishes (its `select!` resolved and the
permit was dropped). -/
def finishConnection (s : DrainState) : DrainState :=
  { s with inflight := s.inflight - 1 }

/-- The events that can occur while the server runs. -/
inductive DrainEvent where
  | spawn
  | finish
deriving DecidableEq, Repr

/-- Apply one runtime event. -/
def applyEvent (s : DrainState) : DrainEvent → DrainState
  | DrainEvent.spawn => spawnConnection s
  | DrainEvent.finish => finishConnection s

/-- Run a sequence of runtime events. -/
def runEvents (s : DrainState) : List DrainEvent → DrainState
  | [] => s
  | e :: rest => runEvents (applyEvent s e) rest

/-- The shutdown path of `main` (`src/src/main.rs` lines 117–136): when
`ctrl_c` wins the `select!`, the `server.run()` future is dropped (the
accept loop stops), then `notify_shutdown` and `shutdown_complete_tx` are
dropped. -/
def shutdownSequence (s : DrainState) : DrainState :=
  { s with accepting := false, listener_sender := false }

/-- `shutdown_complete_rx.recv().await` resolves exactly when no sender of
the channel is left alive. -/
def completionRecvResolved (s : DrainState) : Prop :=
  s.listener_sender = false ∧ s.task_senders = 0

instance (s : DrainState) : Decidable (completionRecvResolved s) :=
  inferInstanceAs (Decidable (_ ∧ _))

/-! ### The version-1 schema decoder (`src/src/schema/v1.rs`, `src/src/utils.rs`)

JSON values are embedded structurally; `serde_json` + the derived
`Deserialize` impls are embedded field by field: a field marked
`#[serde(default)]` that is absent takes the `Default` value of its field
type (the empty string for `String`, `Channel::default()` for `Channel`),
a present field must have the right JSON shape, and a duplicate known
field is an error.  `chrono`'s `DateTime<Utc>` string parser is a
third-party collaborator and is abstracted as a `parseTime` parameter
(a present `time` field must be a string that `parseTime` accepts). -/

inductive Json where
  | str (s : String)
  | num (n : Int)
  | jbool (b : Bool)
  | null
  | arr (elems : List Json)
  | obj (fields : List (String × Json))

/-- First value bound to `key` in a JSON object, if any. -/
def getField (fields : List (String × Json)) (key : String) : Option Json :=
  match fields with
  | [] => none
  | (k, v) :: rest => if k == key then some v else getField rest key

/-- How many times `key` occurs in a JSON object (serde rejects duplicate
known fields). -/
def countKey (fields : List (String × Json)) (key : String) : Nat :=
  (fields.filter (fun kv => kv.1 == key)).length

/-- `String::deserialize`: the JSON value must be a string. -/
def jsonString : Json → Except String String
  | Json.str s => Except.ok s
  | _ => Except.error "invalid type: expected a string"

/-- `pat` consumed from the front of `s`, returning the rest. -/
def dropLitChars : List Char → List Char → Option (List Char)
  | [], s => some s
  | _ :: _, [] => none
  | p :: ps, c :: cs => if p == c then dropLitChars ps cs else none

/-- Consume a literal string from the front of a character list. -/
def dropLit (lit : String) (s : List Char) : Option (List Char) :=
  dropLitChars lit.data s

/-- The character class `[a-zA-Z0-9_-]` of the id-extraction regexes. -/
def isIdChar (c : Char) : Bool :=
  c.isAlpha || c.isDigit || c == '_' || c == '-'

/-- `https?://` — the two branches are mutually exclusive on any input, so
ordered alternation is plain `<|>`. -/
def schemeDrop (s : List Char) : Option (List Char) :=
  dropLit "https://" s <|> dropLit "http://" s

/-- `(?:www\.|music\.)?youtube\.com/` of the video-id regex (the branches
start with distinct characters, so no backtracking across them is ever
needed). -/
def hostDropVideo (s : List Char) : Option (List Char) :=
  (dropLit "www." s).bind (dropLit "youtube.com/")
    <|> (dropLit "music." s).bind (dropLit "youtube.com/")
    <|> dropLit "youtube.com/" s

/-- `(?:www\.)?youtube\.com/` of the channel-id regex. -/
def hostDropChannel (s : List Char) : Option (List Char) :=
  (dropLit "www." s).bind (dropLit "youtube.com/")
    <|> dropLit "youtube.com/" s

/-- `(?:channel|c|user)/`.  Wherever `channel/` matches, `c/` cannot (the
next character is `h`, not `/`), so committing to the first successful
branch agrees with the regex's backtracking. -/
def pathVariantDrop (s : List Char) : Option (List Char) :=
  dropLit "channel/" s <|> dropLit "c/" s <|> dropLit "user/" s

/-- `([a-zA-Z0-9_-]{11})`: exactly eleven id characters (the twelfth
character is unconstrained, as in the regex). -/
def captureEleven (s : List Char) : Option (List Char) :=
  let pre := s.take 11
  if pre.length = 11 && pre.all isIdChar then some pre else none

/-- `([a-zA-Z0-9_-]+)`: a maximal nonempty run of id characters (greedy,
and nothing follows it in the pattern). -/
def captureRun (s : List Char) : Option (List Char) :=
  let pre := s.takeWhile isIdChar
  if pre.isEmpty then none else some pre

/-- The whole video-id pattern anchored at one position: one of the three
URL prefixes followed by an 11-character id. -/
def videoPatternAt (s : List Char) : Option (List Char) :=
  (((schemeDrop s).bind hostDropVideo).bind pathVariantDrop).bind captureEleven
    <|> (((schemeDrop s).bind hostDropVideo).bind (dropLit "watch?v=")).bind captureEleven
    <|> ((schemeDrop s).bind (dropLit "youtu.be/")).bind captureEleven

/-- The whole channel-id pattern anchored at one position. -/
def channelPatternAt (s : List Char) : Option (List Char) :=
  (((schemeDrop s).bind hostDropChannel).bind pathVariantDrop).bind captureRun

/-- Unanchored leftmost search: try the pattern at every position, left to
right (`Regex::captures` returns the leftmost match). -/
def scanFirst (pat : List Char → Option (List Char)) : List Char → Option (List Char)
  | [] => pat []
  | c :: cs => pat (c :: cs) <|> scanFirst pat cs

/-- `extract_youtube_video_id`, from `src/src/utils.rs` lines 43–53: the
first capture of the video-id regex, or the raw string when nothing
matches. -/
def extract_youtube_video_id (haystack : String) : String :=
  match scanFirst videoPatternAt haystack.data with
  | some cap => String.mk cap
  | none => haystack

/-- `extract_youtube_channel_id`, from `src/src/utils.rs` lines 56–67. -/
def extract_youtube_channel_id (haystack : String) : String :=
  match scanFirst channelPatternAt haystack.data with
  | some cap => String.mk cap
  | none => haystack

/-- `video_id_de`, from `src/src/schema/v1.rs` lines 9–15. -/
def video_id_de (j : Json) : Except String String :=
  (jsonString j).map extract_youtube_video_id

/-- `video_title_de`, from `src/src/schema/v1.rs` lines 20–31: remove a
leading `"Watched "` if present. -/
def video_title_de (j : Json) : Except String String :=
  (jsonString j).map (fun s =>
    match dropLit "Watched " s.data with
    | some rest => String.mk rest
    | none => s)

/-- `channel_id_de`, from `src/src/schema/v1.rs` lines 73–79. -/
def channel_id_de (j : Json) : Except String String :=
  (jsonString j).map extract_youtube_channel_id

/-- `Channel::default()`, from `src/src/schema/v1.rs` lines 95–102. -/
def Channel.placeholder : Channel :=
  { id := "-", name := "-" }

/-- The derived `Deserialize` of `v1::Channel` (`src/src/schema/v1.rs`
lines 82–93): field `url` (renamed) through `channel_id_de` with the
`String` default `""` when absent; field `name` a plain string with
default `""`; unknown fields ignored; duplicate known fields rejected. -/
def Channel.deserialize (j : Json) : Except String Channel :=
  match j with
  | Json.obj fields =>
    if 2 ≤ countKey fields "url" then Except.error "duplicate field url"
    else if 2 ≤ countKey fields "name" then Except.error "duplicate field name"
    else
      (match getField fields "url" with
       | none => Except.ok ""
       | some v => channel_id_de v).bind (fun idv =>
      (match getField fields "name" with
       | none => Except.ok ""
       | some v => jsonString v).map (fun namev => { id := idv, name := namev }))
  | _ => Except.error "invalid type: expected an object"

/-- The element loop of the `FirstVisitor` (`while let Some(val) =
seq.next_element::<Channel>()`): every element of the sequence is
deserialized as a `Channel`, and the first error aborts. -/
def deserializeChannels : List Json → Except String (List Channel)
  | [] => Except.ok []
  | j :: rest =>
    (Channel.deserialize j).bind (fun c =>
      (deserializeChannels rest).map (fun cs => c :: cs))

/-- `channel_de`, from `src/src/schema/v1.rs` lines 36–68 (the
`FirstVisitor`): the value must be a sequence, every element is
deserialized as a `Channel`, the first one is kept, and an empty sequence
yields `Channel::default()`. -/
def channel_de (j : Json) : Except String Channel :=
  match j with
  | Json.arr elems =>
    (deserializeChannels elems).map (fun cs =>
      match cs with
      | [] => Channel.placeholder
      | c :: _ => c)
  | _ => Except.error "invalid type: expected a nonempty sequence of objects"

/-- The derived `Deserialize` of `v1::Schema` (`src/src/schema/v1.rs`
lines 104–125): `titleUrl` (renamed to `id`) through `video_id_de`,
default `""`; `title` through `video_title_de`, default `""`; `time` a
required `DateTime<Utc>` (string accepted by `parseTime`); `subtitles`
(renamed to `channel`) through `channel_de`, default `Channel::default()`. -/
def Schema.deserialize (parseTime : String → Option Int) (j : Json) : Except String Schema :=
  match j with
  | Json.obj fields =>
    if 2 ≤ countKey fields "titleUrl" then Except.error "duplicate field titleUrl"
    else if 2 ≤ countKey fields "title" then Except.error "duplicate field title"
    else if 2 ≤ countKey fields "time" then Except.error "duplicate field time"
    else if 2 ≤ countKey fields "subtitles" then Except.error "duplicate field subtitles"
    else
      (match getField fields "titleUrl" with
       | none => Except.ok ""
       | some v => video_id_de v).bind (fun idv =>
      (match getField fields "title" with
       | none => Except.ok ""
       | some v => video_title_de v).bind (fun titlev =>
      (match getField fields "time" with
       | none => Except.error "missing field time"
       | some v =>
         (jsonString v).bind (fun s =>
           match parseTime s with
           | some t => Except.ok t
           | none => Except.error "invalid timestamp")).bind (fun timev =>
      (match getField fields "subtitles" with
       | none => Except.ok Channel.placeholder
       | some v => channel_de v).map (fun chv =>
      { id := idv, title := titlev, time := timev, channel := chv }))))
  | _ => Except.error "invalid type: expected an object"

/-! ### Invariants of the aggregation map and concrete sample inputs -/

/-- The per-item aggregation invariant of `load_v1` after the records `rs`
have been folded in: the item's timeline is sorted ascending, it is (as a
multiset) exactly the times of the raw records carrying the item's id, its
length is the `watch_count`, and `watched_at` is its minimum (a member
that lower-bounds every entry). -/
def ItemInv (rs : List Schema) (m : Metadata) : Prop :=
  m.watch_timeline.Pairwise (fun a b : Int => a ≤ b) ∧
  m.watch_timeline.Perm ((rs.filter (fun r => r.id == m.id)).map (fun r => r.time)) ∧
  m.watch_count = m.watch_timeline.length ∧
  m.watched_at ∈ m.watch_timeline ∧
  ∀ x ∈ m.watch_timeline, m.watched_at ≤ x

/-- The aggregation-map invariant of the `load_v1` loop: at most one entry
per raw record, every processed record's id has an entry, and every entry
satisfies `ItemInv`. -/
def MapInv (rs : List Schema) (map : List Metadata) : Prop :=
  map.length ≤ rs.length ∧
  (∀ r ∈ rs, map.any (fun m => m.id == r.id) = true) ∧
  (∀ m ∈ map, ItemInv rs m)

/-- A concrete channel for sample inputs. -/
def sampleChannel : Channel := { id := "-", name := "-" }

/-- A filter with every filtering field absent. -/
def noFilter (p l : Nat) (o : Order) : MetadataFilter :=
  { id := none, title := none, channel_name := none, «from» := none, «to» := none,
    order := o, page := p, limit := l }

/-- Sample raw event: video `a` watched at time 5. -/
def rA : Schema := { id := "a", title := "A", time := 5, channel := sampleChannel }

/-- Sample raw event: video `b` watched at time 3. -/
def rB : Schema := { id := "b", title := "B", time := 3, channel := sampleChannel }

/-- Sample raw event: video `a` watched again at time 1. -/
def rA2 : Schema := { id := "a", title := "A", time := 1, channel := sampleChannel }

/-- The aggregated item for video `a` after folding `[rA, rB, rA2]`. -/
def mA : Metadata :=
  { id := "a", title := "A", channel := sampleChannel,
    watched_at := 1, watch_count := 2, watch_timeline := [1, 5] }

/-- The aggregated item for video `b` after folding `[rA, rB, rA2]`. -/
def mB : Metadata :=
  { id := "b", title := "B", channel := sampleChannel,
    watched_at := 3, watch_count := 1, watch_timeline := [3] }

/-! ## Theorems -/

theorem windowBounds_lt {total page limit : Nat} (h : usizeWrap (page * limit) < total) :
    windowBounds total page limit =
      some (usizeWrap (page * limit) - limit, usizeWrap (page * limit)) := by
  unfold windowBounds
  rw [if_pos h, Nat.min_eq_left (Nat.le_of_lt h)]

theorem windowBounds_ge {total page limit : Nat} (hlim : limit ≠ 0)
    (h : total ≤ usizeWrap (page * limit)) :
    windowBounds total page limit = some (total - total % limit, total) := by
  unfold windowBounds
  rw [if_neg (not_lt.mpr h), if_neg hlim, Nat.min_eq_right h]

theorem get_collection_some_shape (t : MetadataTable) (f : MetadataFilter)
    (r : MetadataTable × Pagination × List Metadata)
    (h : t.get_collection f = some r) :
    ∃ left right, r =
      (t, Pagination.new f.page (total_page_of (sortedFiltered t f).length f.limit) f.limit,
        ((sortedFiltered t f).take right).drop left) := by
  unfold MetadataTable.get_collection at h
  cases hw : windowBounds (sortedFiltered t f).length f.page f.limit with
  | none => rw [hw] at h; exact absurd h (by simp)
  | some lr =>
    obtain ⟨left, right⟩ := lr
    rw [hw] at h
    simp only [Option.some.injEq] at h
    exact ⟨left, right, h.symm⟩

theorem load_v1_data_sorted (raw : List Schema) : (load_v1 raw).data.Pairwise latestLe := by
  have h := List.sorted_insertionSort latestLe (load_v1_fold raw (0, [], [])).2.2
  exact h

theorem sortedFiltered_pairwise_latest (t : MetadataTable) (f : MetadataFilter)
    (hd : t.data.Pairwise latestLe) (ho : f.order = Order.Latest) :
    (sortedFiltered t f).Pairwise (fun a b => b.watched_at ≤ a.watched_at) := by
  simp only [sortedFiltered, ho]
  exact hd.filter _

theorem sortedFiltered_pairwise_oldest (t : MetadataTable) (f : MetadataFilter)
    (hd : t.data.Pairwise latestLe) (ho : f.order = Order.Oldest) :
    (sortedFiltered t f).Pairwise (fun a b => a.watched_at ≤ b.watched_at) := by
  simp only [sortedFiltered, ho]
  exact List.pairwise_reverse.mpr (hd.filter _)

theorem sortedFiltered_pairwise_most (t : MetadataTable) (f : MetadataFilter)
    (ho : f.order = Order.MostWatched) :
    (sortedFiltered t f).Pairwise (fun a b => b.watch_count ≤ a.watch_count) := by
  simp only [sortedFiltered, ho]
  exact List.pairwise_reverse.mpr (List.sorted_insertionSort countLe _)

theorem sortedFiltered_pairwise_least (t : MetadataTable) (f : MetadataFilter)
    (ho : f.order = Order.LeastWatched) :
    (sortedFiltered t f).Pairwise (fun a b => a.watch_count ≤ b.watch_count) := by
  simp only [sortedFiltered, ho]
  exact List.sorted_insertionSort countLe _

/-- C1: the claim states that for every table, filter with `total ≥ 1` and
`limit ≥ 1`, the windows of pages `1 .. total_page` partition the
filtered/ordered sequence.  The code violates this whenever `limit`
divides `total`: the final in-range page then gets the bounds
`left = total - total % limit = total`, `right = total`, an empty window.
This theorem evaluates the code at such a failing input: a one-item table
with `limit = 1`, for which `total_page = 1` yet page 1 — the only page —
returns the empty window, so the item appears on no page at all. -/
theorem get_collection_full_last_page_empty :
    (load_v1 [rA]).total_count = 1 ∧
    total_page_of (sortedFiltered (load_v1 [rA]) (noFilter 1 1 Order.Latest)).length 1 = 1 ∧
    MetadataTable.get_collection (load_v1 [rA]) (noFilter 1 1 Order.Latest) =
      some (load_v1 [rA], Pagination.new 1 1 1, []) :=
  ⟨rfl, rfl, rfl⟩

/-- C2 counterexample: the claim says that when `page` exceeds
`total_page` the window snaps to the last full-or-partial page and is
therefore non-empty.  On a one-item table with `limit = 1` (so `limit`
divides `total`) and `page = 5 > total_page = 1`, the window is empty. -/
theorem get_collection_overflow_page_empty :
    MetadataTable.get_collection (load_v1 [rA]) (noFilter 5 1 Order.Latest) =
      some (load_v1 [rA], Pagination.new 5 1 1, []) ∧
    sortedFiltered (load_v1 [rA]) (noFilter 5 1 Order.Latest) ≠ [] :=
  ⟨rfl, by decide⟩

/-- C2 (amended): for every filtered/ordered set and `limit ≥ 1`,
provided the `usize` product `page * limit` does not overflow: when
`page * limit < total` the window is the standard slice
`[(page-1)*limit, page*limit)`; when `page` exceeds `total_page` the
window is `[total - total % limit, total)`, the last full-or-partial
page, which is non-empty when `limit` does not divide `total` (and empty
when it does — see the counterexample).  When the product does overflow,
no snapping happens at all: the offset wraps (release profile; a debug
build panics on the multiply), and a wrapped offset of `0` — e.g.
`page = 2^62`, `limit = 4` — takes the in-range branch and returns the
empty window `[0, 0)`, stated as the third conjunct. -/
theorem get_collection_window (t : MetadataTable) (f : MetadataFilter) (hl : 1 ≤ f.limit) :
    (f.page * f.limit < 2 ^ 64 → f.page * f.limit < (sortedFiltered t f).length →
      t.get_collection f =
        some (t,
          Pagination.new f.page (total_page_of (sortedFiltered t f).length f.limit) f.limit,
          ((sortedFiltered t f).take (f.page * f.limit)).drop ((f.page - 1) * f.limit))) ∧
    (f.page * f.limit < 2 ^ 64 →
      total_page_of (sortedFiltered t f).length f.limit < f.page →
      (t.get_collection f =
        some (t,
          Pagination.new f.page (total_page_of (sortedFiltered t f).length f.limit) f.limit,
          (sortedFiltered t f).drop
            ((sortedFiltered t f).length - (sortedFiltered t f).length % f.limit))) ∧
      (¬ f.limit ∣ (sortedFiltered t f).length → sortedFiltered t f ≠ [] →
        (sortedFiltered t f).drop
          ((sortedFiltered t f).length - (sortedFiltered t f).length % f.limit) ≠ [])) ∧
    (usizeWrap (f.page * f.limit) = 0 → sortedFiltered t f ≠ [] →
      t.get_collection f =
        some (t,
          Pagination.new f.page (total_page_of (sortedFiltered t f).length f.limit) f.limit,
          [])) := by
  have hlim0 : f.limit ≠ 0 := by omega
  refine ⟨?_, ?_, ?_⟩
  · intro hov h1
    have hid : usizeWrap (f.page * f.limit) = f.page * f.limit := Nat.mod_eq_of_lt hov
    unfold MetadataTable.get_collection
    rw [windowBounds_lt (by rw [hid]; exact h1), hid]
    rw [Nat.sub_mul, one_mul]
  · intro hov h2
    have hid : usizeWrap (f.page * f.limit) = f.page * f.limit := Nat.mod_eq_of_lt hov
    have htp : total_page_of (sortedFiltered t f).length f.limit =
        ((sortedFiltered t f).length + f.limit - 1) / f.limit := by
      unfold total_page_of
      rw [if_neg hlim0]
    have key : (sortedFiltered t f).length ≤ f.page * f.limit := by
      rw [htp] at h2
      have h4 : (sortedFiltered t f).length + f.limit - 1 < f.page * f.limit :=
        (Nat.div_lt_iff_lt_mul (by omega)).mp h2
      omega
    constructor
    · unfold MetadataTable.get_collection
      rw [windowBounds_ge hlim0 (by rw [hid]; exact key)]
      simp only [List.take_length]
    · intro hdvd hne
      have hmodpos : (sortedFiltered t f).length % f.limit ≠ 0 := by
        intro hz
        exact hdvd (Nat.dvd_iff_mod_eq_zero.mpr hz)
      have hlenpos : 0 < (sortedFiltered t f).length := List.length_pos.mpr hne
      have hmodle : (sortedFiltered t f).length % f.limit ≤ (sortedFiltered t f).length :=
        Nat.mod_le _ _
      rw [Ne, List.drop_eq_nil_iff]
      omega
  · intro hw hne
    have h0 : 0 < (sortedFiltered t f).length := List.length_pos.mpr hne
    unfold MetadataTable.get_collection
    rw [windowBounds_lt (by rw [hw]; exact h0), hw]
    simp

/-- C2 witness: the amended window theorem applied at a concrete two-item
table with `limit = 1`, `page = 1` (no overflow and in range:
`1 * 1 < 2`), yielding the standard slice `[0, 1)`. -/
theorem get_collection_window_witness :
    MetadataTable.get_collection (load_v1 [rA, rB, rA2]) (noFilter 1 1 Order.Latest) =
      some (load_v1 [rA, rB, rA2],
        Pagination.new 1
          (total_page_of
            (sortedFiltered (load_v1 [rA, rB, rA2]) (noFilter 1 1 Order.Latest)).length 1) 1,
        ((sortedFiltered (load_v1 [rA, rB, rA2]) (noFilter 1 1 Order.Latest)).take
          (1 * 1)).drop ((1 - 1) * 1)) :=
  (get_collection_window (load_v1 [rA, rB, rA2]) (noFilter 1 1 Order.Latest)
    (by decide)).1 (by decide) (by decide)

/-- C3 counterexample: the claim states `get_collection` never panics,
in particular that the call is total when the filtered set is empty and
`limit = 0`.  Exactly there the code evaluates `total_item % limit_offset`
with `limit_offset = 0`, a Rust panic (embedded as `none`). -/
theorem get_collection_limit_zero_empty_panics :
    MetadataTable.get_collection (load_v1 []) (noFilter 1 0 Order.Latest) = none := rfl

/-- C3 (amended): `get_collection` raises no error for out-of-range `page`
or for `limit = 0` with a non-empty filtered set (such values only shrink
the window); the one exception is `limit = 0` with an empty filtered set,
where the Rust `%` by zero panics: the call is partial exactly there. -/
theorem get_collection_total_iff (t : MetadataTable) (f : MetadataFilter) :
    t.get_collection f = none ↔ f.limit = 0 ∧ sortedFiltered t f = [] := by
  by_cases hlim : f.limit = 0
  · by_cases hnil : sortedFiltered t f = []
    · have h0 : (sortedFiltered t f).length = 0 := by rw [hnil]; rfl
      have hlt : ¬ (usizeWrap (f.page * f.limit) < (sortedFiltered t f).length) := by
        rw [hlim, h0, Nat.mul_zero]
        omega
      unfold MetadataTable.get_collection windowBounds
      rw [if_neg hlt, if_pos hlim]
      simp [hlim, hnil]
    · have h0 : 0 < (sortedFiltered t f).length := List.length_pos.mpr hnil
      have hlt : usizeWrap (f.page * f.limit) < (sortedFiltered t f).length := by
        rw [hlim, Nat.mul_zero]
        exact h0
      unfold MetadataTable.get_collection
      rw [windowBounds_lt hlt]
      simp [hnil]
  · unfold MetadataTable.get_collection windowBounds
    split_ifs with h1
    · simp [hlim]
    · simp [hlim]

/-- C5: for every table built by ingestion (`load_v1`) and every filter
request, the window returned by `get_collection` is ordered as claimed:
`Latest` non-increasing in `watched_at` (the earliest watch time),
`Oldest` non-decreasing in `watched_at`, `MostWatched` non-increasing in
`watch_count` (the embedding realises the claimed tie-break definitionally:
a stable ascending sort followed by `reverse`, exactly the source's
`sort_by_key` + `reverse`), `LeastWatched` non-decreasing in
`watch_count`. -/
theorem get_collection_order (raw : List Schema) (f : MetadataFilter)
    (r : MetadataTable × Pagination × List Metadata)
    (h : (load_v1 raw).get_collection f = some r) :
    match f.order with
    | Order.Latest => r.2.2.Pairwise (fun a b => b.watched_at ≤ a.watched_at)
    | Order.Oldest => r.2.2.Pairwise (fun a b => a.watched_at ≤ b.watched_at)
    | Order.MostWatched => r.2.2.Pairwise (fun a b => b.watch_count ≤ a.watch_count)
    | Order.LeastWatched => r.2.2.Pairwise (fun a b => a.watch_count ≤ b.watch_count) := by
  obtain ⟨left, right, hr⟩ := get_collection_some_shape _ _ _ h
  have hsub : r.2.2.Sublist (sortedFiltered (load_v1 raw) f) := by
    rw [hr]
    exact (List.drop_sublist _ _).trans (List.take_sublist _ _)
  have hd := load_v1_data_sorted raw
  cases ho : f.order with
  | Latest => exact List.Pairwise.sublist hsub (sortedFiltered_pairwise_latest _ _ hd ho)
  | Oldest => exact List.Pairwise.sublist hsub (sortedFiltered_pairwise_oldest _ _ hd ho)
  | MostWatched => exact List.Pairwise.sublist hsub (sortedFiltered_pairwise_most _ _ ho)
  | LeastWatched => exact List.Pairwise.sublist hsub (sortedFiltered_pairwise_least _ _ ho)

/-- C5 witness: the order theorem applied to the concrete three-event
ingestion `[rA, rB, rA2]` under `MostWatched`, whose page-1 window is
`[mA, mB]` with watch counts `2 ≥ 1`. -/
theorem get_collection_order_witness :
    List.Pairwise (fun a b : Metadata => b.watch_count ≤ a.watch_count) [mA, mB] :=
  get_collection_order [rA, rB, rA2] (noFilter 1 20 Order.MostWatched)
    (load_v1 [rA, rB, rA2], Pagination.new 1 1 20, [mA, mB]) rfl

theorem updateMeta_id (r : Schema) (m : Metadata) : (updateMeta r m).id = m.id := rfl

theorem ItemInv_newMeta (rs : List Schema) (r : Schema)
    (hnone : ∀ r' ∈ rs, (r'.id == r.id) = false) :
    ItemInv (rs ++ [r]) (newMeta r) := by
  have hfilter : (rs ++ [r]).filter (fun x => x.id == (newMeta r).id) = [r] := by
    rw [List.filter_append]
    have h1 : rs.filter (fun x => x.id == (newMeta r).id) = [] := by
      rw [List.filter_eq_nil_iff]
      intro a ha
      show ¬ (a.id == (newMeta r).id) = true
      have : (newMeta r).id = r.id := rfl
      rw [this, hnone a ha]
      simp
    rw [h1]
    simp [newMeta]
  refine ⟨List.pairwise_singleton _ _, ?_, rfl, ?_, ?_⟩
  · rw [hfilter]
    simp [newMeta]
  · simp [newMeta]
  · intro x hx
    simp only [newMeta, List.mem_singleton] at hx ⊢
    rw [hx]

theorem ItemInv_other (rs : List Schema) (r : Schema) (m : Metadata)
    (hne : (r.id == m.id) = false) (hI : ItemInv rs m) : ItemInv (rs ++ [r]) m := by
  obtain ⟨h1, h2, h3, h4, h5⟩ := hI
  refine ⟨h1, ?_, h3, h4, h5⟩
  rw [List.filter_append]
  have : [r].filter (fun x => x.id == m.id) = [] := by
    simp [hne]
  rw [this, List.append_nil]
  exact h2

theorem ItemInv_update (rs : List Schema) (r : Schema) (m : Metadata)
    (heq : m.id = r.id) (hI : ItemInv rs m) : ItemInv (rs ++ [r]) (updateMeta r m) := by
  obtain ⟨hsort, hperm, hcount, hmem, hlb⟩ := hI
  have hrm : (r.id == m.id) = true := by
    rw [heq]
    exact beq_self_eq_true _
  have hfilter : (rs ++ [r]).filter (fun x => x.id == (updateMeta r m).id) =
      rs.filter (fun x => x.id == m.id) ++ [r] := by
    simp only [updateMeta_id, List.filter_append]
    congr 1
    simp [hrm]
  have htl : (updateMeta r m).watch_timeline =
      List.insertionSort (fun a b : Int => a ≤ b) (m.watch_timeline ++ [r.time]) := rfl
  have hpermX : (updateMeta r m).watch_timeline.Perm (m.watch_timeline ++ [r.time]) := by
    rw [htl]
    exact List.perm_insertionSort _ _
  refine ⟨?_, ?_, ?_, ?_, ?_⟩
  · rw [htl]
    exact List.sorted_insertionSort _ _
  · rw [hfilter, List.map_append]
    exact hpermX.trans (hperm.append_right _)
  · have hlen : (updateMeta r m).watch_timeline.length = m.watch_timeline.length + 1 := by
      rw [hpermX.length_eq, List.length_append, List.length_singleton]
    rw [hlen]
    show m.watch_count + 1 = m.watch_timeline.length + 1
    rw [hcount]
  · apply hpermX.mem_iff.mpr
    rw [List.mem_append]
    by_cases hw : r.time < m.watched_at
    · right
      have hwa : (updateMeta r m).watched_at = r.time := by simp [updateMeta, if_pos hw]
      rw [hwa]
      simp
    · left
      have hwa : (updateMeta r m).watched_at = m.watched_at := by simp [updateMeta, if_neg hw]
      rw [hwa]
      exact hmem
  · intro x hx
    have hx' : x ∈ m.watch_timeline ++ [r.time] := hpermX.mem_iff.mp hx
    rw [List.mem_append] at hx'
    by_cases hw : r.time < m.watched_at
    · have hwa : (updateMeta r m).watched_at = r.time := by simp [updateMeta, if_pos hw]
      rw [hwa]
      cases hx' with
      | inl h => exact le_trans (le_of_lt hw) (hlb x h)
      | inr h =>
        have hx2 : x = r.time := by simpa using h
        rw [hx2]
    · have hwa : (updateMeta r m).watched_at = m.watched_at := by simp [updateMeta, if_neg hw]
      rw [hwa]
      cases hx' with
      | inl h => exact hlb x h
      | inr h =>
        have hx2 : x = r.time := by simpa using h
        rw [hx2]
        exact not_lt.mp hw

theorem MapInv_insertRecord (rs : List Schema) (map : List Metadata) (r : Schema)
    (h : MapInv rs map) : MapInv (rs ++ [r]) (insertRecord map r) := by
  obtain ⟨hlen, hany, hitems⟩ := h
  unfold insertRecord
  by_cases hc : map.any (fun m => m.id == r.id) = true
  · rw [if_pos hc]
    refine ⟨?_, ?_, ?_⟩
    · rw [List.length_map, List.length_append]
      omega
    · intro r' hr'
      rw [List.mem_append] at hr'
      apply List.any_eq_true.mpr
      cases hr' with
      | inl hin =>
        obtain ⟨m, hm, hpm⟩ := List.any_eq_true.mp (hany r' hin)
        refine ⟨if m.id == r.id then updateMeta r m else m, List.mem_map_of_mem _ hm, ?_⟩
        by_cases hmid : (m.id == r.id) = true
        · rw [if_pos hmid, updateMeta_id]
          exact hpm
        · rw [if_neg hmid]
          exact hpm
      | inr hin =>
        rw [List.mem_singleton] at hin
        rw [hin]
        obtain ⟨m, hm, hpm⟩ := List.any_eq_true.mp hc
        refine ⟨if m.id == r.id then updateMeta r m else m, List.mem_map_of_mem _ hm, ?_⟩
        rw [if_pos hpm, updateMeta_id]
        exact hpm
    · intro m' hm'
      rw [List.mem_map] at hm'
      obtain ⟨m, hm, hval⟩ := hm'
      by_cases hmid : (m.id == r.id) = true
      · rw [if_pos hmid] at hval
        rw [← hval]
        exact ItemInv_update rs r m (eq_of_beq hmid) (hitems m hm)
      · rw [if_neg hmid] at hval
        rw [← hval]
        have hne : (r.id == m.id) = false := by
          rw [beq_eq_false_iff_ne]
          intro hx
          exact hmid (by rw [hx]; exact beq_self_eq_true _)
        exact ItemInv_other rs r m hne (hitems m hm)
  · rw [if_neg hc]
    have hnone : ∀ m ∈ map, (m.id == r.id) = false := by
      intro m hm
      by_contra hx
      exact hc (List.any_eq_true.mpr ⟨m, hm, by
        cases hb : (m.id == r.id) with
        | false => exact absurd hb hx
        | true => rfl⟩)
    refine ⟨?_, ?_, ?_⟩
    · rw [List.length_append, List.length_append, List.length_singleton, List.length_singleton]
      omega
    · intro r' hr'
      rw [List.mem_append] at hr'
      rw [List.any_append, Bool.or_eq_true]
      cases hr' with
      | inl hin =>
        left
        exact hany r' hin
      | inr hin =>
        right
        rw [List.mem_singleton] at hin
        rw [hin]
        simp [newMeta]
    · intro m' hm'
      rw [List.mem_append] at hm'
      cases hm' with
      | inl hin =>
        have hne : (r.id == m'.id) = false := by
          rw [beq_eq_false_iff_ne]
          intro hx
          have h2 := hnone m' hin
          rw [← hx, beq_self_eq_true] at h2
          exact Bool.noConfusion h2
        exact ItemInv_other rs r m' hne (hitems m' hin)
      | inr hin =>
        rw [List.mem_singleton] at hin
        subst hin
        apply ItemInv_newMeta
        intro r' hr'
        rw [beq_eq_false_iff_ne]
        intro hx
        obtain ⟨m, hm, hpm⟩ := List.any_eq_true.mp (hany r' hr')
        have hid : m.id = r'.id := eq_of_beq hpm
        have htrue : (m.id == r.id) = true := by rw [hid, hx]; exact beq_self_eq_true _
        have hfalse := hnone m hm
        rw [htrue] at hfalse
        exact Bool.noConfusion hfalse

theorem MapInv_nil : MapInv [] [] :=
  ⟨Nat.le_refl 0,
   fun r hr => absurd hr (List.not_mem_nil r),
   fun m hm => absurd hm (List.not_mem_nil m)⟩

theorem load_v1_fold_count (raw : List Schema) :
    ∀ (n : Nat) (tl : List Int) (map : List Metadata),
      (load_v1_fold raw (n, tl, map)).1 = n + raw.length := by
  induction raw with
  | nil => intro n tl map; simp [load_v1_fold]
  | cons r rest ih =>
    intro n tl map
    show (load_v1_fold rest (n + 1, tl ++ [r.time], insertRecord map r)).1 = _
    rw [ih]
    simp [List.length_cons]
    omega

theorem load_v1_fold_inv (raw : List Schema) :
    ∀ (rs : List Schema) (n : Nat) (tl : List Int) (map : List Metadata),
      MapInv rs map → MapInv (rs ++ raw) (load_v1_fold raw (n, tl, map)).2.2 := by
  induction raw with
  | nil =>
    intro rs n tl map h
    simpa using h
  | cons r rest ih =>
    intro rs n tl map h
    have h' := MapInv_insertRecord rs map r h
    have hrec := ih (rs ++ [r]) (n + 1) (tl ++ [r.time]) (insertRecord map r) h'
    rw [List.append_assoc, List.singleton_append] at hrec
    exact hrec

/-- C6: for every sequence of decoded raw events, the aggregation
invariants of `load_v1` hold: the distinct item count is at most the raw
event count, `total_count_raw` equals the raw event count, and every
item's `watch_count` equals the number of raw events carrying its video
id. -/
theorem load_v1_dedup (raw : List Schema) :
    (load_v1 raw).total_count ≤ raw.length ∧
    (load_v1 raw).total_count_raw = raw.length ∧
    ∀ m ∈ (load_v1 raw).data,
      m.watch_count = (raw.filter (fun r => r.id == m.id)).length := by
  have hinv := load_v1_fold_inv raw [] 0 [] [] MapInv_nil
  rw [List.nil_append] at hinv
  obtain ⟨hlen, _, hitems⟩ := hinv
  refine ⟨?_, ?_, ?_⟩
  · have h1 : (load_v1 raw).total_count =
        (List.insertionSort latestLe (load_v1_fold raw (0, [], [])).2.2).length := rfl
    rw [h1, (List.perm_insertionSort latestLe _).length_eq]
    exact hlen
  · have h1 : (load_v1 raw).total_count_raw = (load_v1_fold raw (0, [], [])).1 := rfl
    rw [h1, load_v1_fold_count]
    omega
  · intro m hm
    have hm' : m ∈ (load_v1_fold raw (0, [], [])).2.2 :=
      (List.perm_insertionSort latestLe _).mem_iff.mp hm
    obtain ⟨_, hperm, hcount, _, _⟩ := hitems m hm'
    rw [hcount, hperm.length_eq, List.length_map]

/-- C6 witness: the dedup theorem at the concrete ingestion
`[rA, rB, rA2]` (two distinct videos out of three events) and at the
aggregated item `mA`, whose id occurs in two raw events. -/
theorem load_v1_dedup_witness :
    (load_v1 [rA, rB, rA2]).total_count ≤ 3 ∧
    (load_v1 [rA, rB, rA2]).total_count_raw = 3 ∧
    mA.watch_count = ([rA, rB, rA2].filter (fun r => r.id == mA.id)).length := by
  obtain ⟨h1, h2, h3⟩ := load_v1_dedup [rA, rB, rA2]
  exact ⟨h1, h2, h3 mA (by decide)⟩

/-- C7: for every sequence of decoded raw events and every aggregated
item, the item's `watch_timeline` is sorted ascending, its length is the
item's `watch_count`, and its minimum is the item's `watched_at` (a
member lower-bounding every entry); the table's global `watch_timeline`
is sorted ascending as well. -/
theorem load_v1_timeline_invariants (raw : List Schema) :
    (∀ m ∈ (load_v1 raw).data,
      m.watch_timeline.Pairwise (fun a b : Int => a ≤ b) ∧
      m.watch_timeline.length = m.watch_count ∧
      m.watched_at ∈ m.watch_timeline ∧
      ∀ x ∈ m.watch_timeline, m.watched_at ≤ x) ∧
    (load_v1 raw).watch_timeline.Pairwise (fun a b : Int => a ≤ b) := by
  constructor
  · intro m hm
    have hinv := load_v1_fold_inv raw [] 0 [] [] MapInv_nil
    rw [List.nil_append] at hinv
    obtain ⟨_, _, hitems⟩ := hinv
    have hm' : m ∈ (load_v1_fold raw (0, [], [])).2.2 :=
      (List.perm_insertionSort latestLe _).mem_iff.mp hm
    obtain ⟨hsort, _, hcount, hmem, hlb⟩ := hitems m hm'
    exact ⟨hsort, hcount.symm, hmem, hlb⟩
  · exact List.sorted_insertionSort _ _

/-- C7 witness: the timeline theorem at the ingestion `[rA, rB, rA2]` and
the item `mA`, whose timeline `[1, 5]` is sorted, has length
`watch_count = 2`, and has `watched_at = 1` as its member minimum (also
bounding the concrete entry `5`). -/
theorem load_v1_timeline_witness :
    mA.watch_timeline.Pairwise (fun a b : Int => a ≤ b) ∧
    mA.watch_timeline.length = mA.watch_count ∧
    mA.watched_at ∈ mA.watch_timeline ∧ mA.watched_at ≤ 5 := by
  obtain ⟨h1, h2, h3, h4⟩ :=
    (load_v1_timeline_invariants [rA, rB, rA2]).1 mA (by decide)
  exact ⟨h1, h2, h3, h4 5 (by decide)⟩

/-- C8: `get_collection` leaves the table unchanged — the post-call table
returned by the state-passing embedding has the same `total_count_raw`,
`total_count`, global `watch_timeline` and item sequence (contents and
order) as the table before the call; the query path only filters and
sorts a copy of the rows. -/
theorem get_collection_preserves_table (t : MetadataTable) (f : MetadataFilter)
    (r : MetadataTable × Pagination × List Metadata)
    (h : t.get_collection f = some r) :
    r.1.total_count_raw = t.total_count_raw ∧ r.1.total_count = t.total_count ∧
    r.1.watch_timeline = t.watch_timeline ∧ r.1.data = t.data := by
  obtain ⟨left, right, hr⟩ := get_collection_some_shape t f r h
  rw [hr]
  exact ⟨rfl, rfl, rfl, rfl⟩

/-- C8 witness: the frame theorem applied to a concrete call, whose
returned table component carries the unchanged item sequence. -/
theorem get_collection_preserves_table_witness :
    ((load_v1 [rA, rB, rA2], Pagination.new 1 1 20, [mA, mB]) :
        MetadataTable × Pagination × List Metadata).1.data = (load_v1 [rA, rB, rA2]).data :=
  (get_collection_preserves_table (load_v1 [rA, rB, rA2]) (noFilter 1 20 Order.MostWatched)
    (load_v1 [rA, rB, rA2], Pagination.new 1 1 20, [mA, mB]) rfl).2.2.2

/-- C4 counterexample: the claim states the completion-tracking receive
does not resolve before every in-flight connection task has ended.  But
the spawned tasks hold no clone of `shutdown_complete_tx`
(`src/src/main.rs` lines 49–60 move only the permit and the `Shutdown`
receiver into the task), so after `main` drops its own sender the mpsc
channel has no senders left and `recv` resolves — here with one
connection task still in flight. -/
theorem drain_completion_counterexample :
    (shutdownSequence (spawnConnection DrainState.init)).accepting = false ∧
    (shutdownSequence (spawnConnection DrainState.init)).inflight = 1 ∧
    completionRecvResolved (shutdownSequence (spawnConnection DrainState.init)) :=
  ⟨rfl, rfl, rfl, rfl⟩

/-- C4 (amended): after the shutdown signal no new connections are
accepted (the `select!` drops the accept loop), but because no spawned
connection task holds a clone of the completion sender, the
completion-tracking receive resolves as soon as `main` drops its sender,
regardless of how many connection tasks are still in flight — the
graceful-drain wait is vacuous, as §9 of the design notes warns. -/
theorem drain_amended (evs : List DrainEvent) :
    (shutdownSequence (runEvents DrainState.init evs)).accepting = false ∧
    completionRecvResolved (shutdownSequence (runEvents DrainState.init evs)) := by
  have hts : ∀ s : DrainState, s.task_senders = 0 → (runEvents s evs).task_senders = 0 := by
    induction evs with
    | nil => intro s h; exact h
    | cons e rest ih =>
      intro s h
      show (runEvents (applyEvent s e) rest).task_senders = 0
      apply ih
      cases e
      · exact h
      · exact h
  exact ⟨rfl, rfl, hts DrainState.init rfl⟩

/-- C9: the accept loop retries each failed accept after exponential
backoff 1, 2, 4, …, 64 (at most seven delayed retries) and a successful
accept returns at once with no further delay; once the backoff has grown
past the 64-second ceiling (i.e. on the eighth consecutive failure) the
error is returned to the caller, terminating the loop. -/
theorem accept_backoff_policy :
    (∀ (k : Nat) (rest : List AcceptOutcome), k ≤ 7 →
      Listener.accept (List.replicate k AcceptOutcome.err ++ AcceptOutcome.ok :: rest) =
        some (AcceptResult.connected ((List.range k).map (fun i => 2 ^ i)))) ∧
    (∀ rest : List AcceptOutcome,
      Listener.accept (List.replicate 8 AcceptOutcome.err ++ rest) =
        some (AcceptResult.fatal ((List.range 7).map (fun i => 2 ^ i)))) := by
  constructor
  · intro k rest hk
    interval_cases k <;> rfl
  · intro rest
    rfl

/-- C9 witness: three failures then a success connects after sleeping
1, 2 and 4 seconds. -/
theorem accept_backoff_policy_witness :
    Listener.accept
        (List.replicate 3 AcceptOutcome.err ++ AcceptOutcome.ok :: []) =
      some (AcceptResult.connected ((List.range 3).map (fun i => 2 ^ i))) :=
  accept_backoff_policy.1 3 [] (by decide)

/-- C10: decoding succeeds with field-type defaults (not the `"-"`
placeholder) when URL-bearing fields are absent: a record with no
`titleUrl` decodes with `id = ""`; a present first `subtitles` element
missing `url` (resp. `name`) decodes with that field `""`; the
`"-"`/`"-"` placeholder channel arises only from an absent or empty
`subtitles` list — a present non-empty list always yields its first
element's decoded channel. -/
theorem schema_decode_defaults (pt : String → Option Int) (ts nm url : String) (tv : Int)
    (hpt : pt ts = some tv) :
    (Schema.deserialize pt (Json.obj [("title", Json.str "Watched A"), ("time", Json.str ts)]) = Except.ok { id := "", title := "A", time := tv, channel := Channel.placeholder }) ∧
    (Schema.deserialize pt (Json.obj [("time", Json.str ts), ("subtitles", Json.arr [])]) = Except.ok { id := "", title := "", time := tv, channel := Channel.placeholder }) ∧
    (Schema.deserialize pt (Json.obj [("time", Json.str ts), ("subtitles", Json.arr [Json.obj [("name", Json.str nm)]])]) = Except.ok { id := "", title := "", time := tv, channel := { id := "", name := nm } }) ∧
    (Schema.deserialize pt (Json.obj [("time", Json.str ts), ("subtitles", Json.arr [Json.obj [("url", Json.str url)]])]) = Except.ok { id := "", title := "", time := tv, channel := { id := extract_youtube_channel_id url, name := "" } }) ∧
    (∀ (cj : Json) (restJ : List Json) (c : Channel) (cs : List Channel),
      Channel.deserialize cj = Except.ok c →
      deserializeChannels restJ = Except.ok cs →
      Schema.deserialize pt (Json.obj [("time", Json.str ts), ("subtitles", Json.arr (cj :: restJ))]) = Except.ok { id := "", title := "", time := tv, channel := c }) := by
  refine ⟨?_, ?_, ?_, ?_, ?_⟩
  · simp [Schema.deserialize, getField, countKey, jsonString, video_title_de, video_id_de,
      channel_de, Channel.deserialize, hpt, Channel.placeholder, Except.bind, Except.map,
      dropLit, dropLitChars]
  · simp [Schema.deserialize, getField, countKey, jsonString, video_title_de, video_id_de,
      channel_de, deserializeChannels, Channel.deserialize, hpt, Channel.placeholder,
      Except.bind, Except.map, dropLit, dropLitChars]
  · simp [Schema.deserialize, getField, countKey, jsonString, video_title_de, video_id_de,
      channel_de, deserializeChannels, Channel.deserialize, hpt, Channel.placeholder,
      Except.bind, Except.map, dropLit, dropLitChars]
  · simp [Schema.deserialize, getField, countKey, jsonString, video_title_de, video_id_de,
      channel_de, deserializeChannels, Channel.deserialize, channel_id_de, hpt,
      Channel.placeholder, Except.bind, Except.map, dropLit, dropLitChars]
  · intro cj restJ c cs hc hcs
    simp [Schema.deserialize, getField, countKey, jsonString, channel_de, deserializeChannels,
      hpt, hc, hcs, Except.bind, Except.map]

/-- C10 witness: the decode theorem applied at a concrete time parser and
record with no `titleUrl` field. -/
theorem schema_decode_defaults_witness :
    Schema.deserialize (fun s => if s == "2020" then some (42 : Int) else none)
        (Json.obj [("title", Json.str "Watched A"), ("time", Json.str "2020")]) =
      Except.ok { id := "", title := "A", time := 42, channel := Channel.placeholder } :=
  (schema_decode_defaults (fun s => if s == "2020" then some 42 else none)
    "2020" "N" "U" 42 rfl).1

end Ytm
